import Mathlib

/-!
Shallow embedding of the icon cache in
`src/libnautilus-private/nautilus-icon-factory.c` (the nautilus icon
factory): cache keys, reference-counted cache entries, the bounded
recency list, the sweep pass, clearing and explicit removal.

C strings are modelled as Lean `String`s viewed as their UTF-8 byte
sequences (`strBytes`); nullable C strings are `Option String`.
C `guint` arithmetic is `Nat` reduced `% 2 ^ 32` where overflow matters.
The heap of live `CacheIcon` objects is an association list from entry
ids (`Nat`) to entry records; the circular doubly-linked recency list is
represented by the list of member entry ids in order, most recent first
(a node with `next = NULL`, i.e. not in the C list, is an id absent from
the Lean list; `node->prev == head` holds exactly for the first
element).  External collaborators (stat, the GTK icon theme, image
loading) are an explicit `Env` of oracle functions, per the spec's
"consumed capabilities".
-/

/-- `ICON_CACHE_COUNT` from nautilus-icon-factory.c line 83. -/
def ICON_CACHE_COUNT : Nat := 20

/-- `ICON_MAX_AGE` from nautilus-icon-factory.c line 93. -/
def ICON_MAX_AGE : Nat := 10

/-- The C `guint` modulus. -/
def guintMod : Nat := 2 ^ 32

/-- UTF-8 encoding of a single code point, as byte values. -/
def charBytes (n : Nat) : List Nat :=
  if n < 0x80 then [n]
  else if n < 0x800 then [0xC0 + n / 64, 0x80 + n % 64]
  else if n < 0x10000 then
    [0xE0 + n / 4096, 0x80 + (n / 64) % 64, 0x80 + n % 64]
  else
    [0xF0 + n / 262144, 0x80 + (n / 4096) % 64, 0x80 + (n / 64) % 64, 0x80 + n % 64]

/-- The byte sequence a C `char *` for this string would hold (UTF-8). -/
def strBytes (s : String) : List Nat :=
  s.data.foldr (fun c acc => charBytes c.toNat ++ acc) []

/-- C `strcmp` on byte sequences: 0 iff equal, otherwise the difference
at the first disagreement (comparing against the terminating NUL when
one string is a prefix of the other). -/
def strcmp : List Nat → List Nat → Int
  | [], [] => 0
  | [], c :: _ => 0 - (c : Int)
  | c :: _, [] => (c : Int) - 0
  | c1 :: a, c2 :: b => if c1 = c2 then strcmp a b else (c1 : Int) - (c2 : Int)

/-- `eel_strcmp` from the eel library: `strcmp` with NULL treated as the
empty string. -/
def eel_strcmp (a b : Option String) : Int :=
  strcmp (strBytes (a.getD "")) (strBytes (b.getD ""))

/-- A byte read through `const signed char *` and converted to
`guint32`: values at or above 128 are sign-extended, i.e. become
`2^32 + b - 256`. -/
def signed_char_as_guint (b : Nat) : Nat :=
  if b < 128 then b else (guintMod + b) - 256

/-- The X31 hash of a byte sequence: `h = *p; if (h) for (...)
h = (h << 5) - h + *p;` in `guint32` arithmetic (the empty sequence
hashes to 0). -/
def g_str_hash_bytes : List Nat → Nat
  | [] => 0
  | c :: rest =>
    rest.foldl (fun h b => (h * 32 - h + signed_char_as_guint b) % guintMod)
      (signed_char_as_guint c)

/-- GLib `g_str_hash` as linked by this gnome-vfs-era program (GLib
before 2.28): the "31 bit hash function" over the string's bytes read
as `signed char`, returning 0 for the empty string. -/
def g_str_hash (s : String) : Nat :=
  g_str_hash_bytes (strBytes s)

/-- `CacheKey` (nautilus-icon-factory.c lines 105-110).  `name` is never
NULL for keys that reach the hash functions (`g_str_hash` would crash),
so it is a plain `String`; `modifier` is nullable. -/
structure CacheKey where
  name : String
  modifier : Option String
  nominal_size : Nat
  force_nominal : Bool
  deriving Repr, DecidableEq

/-- `cache_key_hash` (lines 1597-1613):
`g_str_hash (name) ^ ((nominal_size << 4) + (gint) force_nominal)`,
then XOR with `g_str_hash (modifier)` only when `modifier` is non-NULL. -/
def cache_key_hash (key : CacheKey) : Nat :=
  let hash := g_str_hash key.name ^^^
    (((key.nominal_size <<< 4) + (if key.force_nominal then 1 else 0)) % guintMod)
  match key.modifier with
  | some m => hash ^^^ g_str_hash m
  | none => hash

/-- `cache_key_equal` (lines 1615-1627): byte comparison of names, exact
equality of size and force flag, and `eel_strcmp` of modifiers (which
identifies NULL with the empty string). -/
def cache_key_equal (a b : CacheKey) : Bool :=
  eel_strcmp (some a.name) (some b.name) = 0 &&
  a.nominal_size = b.nominal_size &&
  a.force_nominal = b.force_nominal &&
  eel_strcmp a.modifier b.modifier = 0

/-- `name[0] == '/'`: true iff the name begins with the absolute-path
prefix character (false for the empty string, whose first byte is NUL). -/
def starts_with_slash (s : String) : Bool :=
  s.data.head? = some '/'

/-- `CacheIcon` (lines 113-128).  The pixbuf is modelled by its own
reference count (`G_OBJECT (icon->pixbuf)->ref_count`, where the cache
entry's ownership accounts for 1); the optional metadata fields
(embedded text rect, attach points, display name) play no role in any
claim and are omitted. -/
structure CacheIcon where
  ref_count : Nat
  pixbuf_ref_count : Nat
  mtime : Int
  age : Nat
  deriving Repr, DecidableEq

/-- Heap lookup in the association list of live entries. -/
def lookupIcon : List (Nat × CacheIcon) → Nat → Option CacheIcon
  | [], _ => none
  | (i, ic) :: rest, id => if i = id then some ic else lookupIcon rest id

/-- Heap update: replace the record stored under `id` (first match). -/
def setIconList : List (Nat × CacheIcon) → Nat → CacheIcon → List (Nat × CacheIcon)
  | [], _, _ => []
  | (i, ic) :: rest, id, icon =>
    if i = id then (i, icon) :: rest else (i, ic) :: setIconList rest id icon

/-- Heap deallocation: drop the record stored under `id`. -/
def freeIconList (l : List (Nat × CacheIcon)) (id : Nat) : List (Nat × CacheIcon) :=
  l.filter (fun p => p.1 != id)

/-- The icon factory state (`NautilusIconFactory`, lines 135-159,
restricted to the cache fields the claims are about):
the entry heap, the key-to-entry hash table as an association list, the
recency list (member ids, most recent first) with its maintained
counter, the distinguished fallback entry id, the pending-sweep flag,
and a fresh-id counter standing for the C allocator. -/
structure FactoryState where
  icons : List (Nat × CacheIcon)
  icon_cache : List (CacheKey × Nat)
  recently_used : List Nat
  recently_used_count : Nat
  fallback_icon : Nat
  sweep_timer : Bool
  next_id : Nat
  deriving Repr, DecidableEq

def FactoryState.getIcon (st : FactoryState) (id : Nat) : Option CacheIcon :=
  lookupIcon st.icons id

def FactoryState.setIcon (st : FactoryState) (id : Nat) (icon : CacheIcon) : FactoryState :=
  { st with icons := setIconList st.icons id icon }

def FactoryState.freeIcon (st : FactoryState) (id : Nat) : FactoryState :=
  { st with icons := freeIconList st.icons id }

/-- `cache_icon_ref` (lines 547-554). -/
def cache_icon_ref (st : FactoryState) (id : Nat) : FactoryState :=
  match st.getIcon id with
  | none => st
  | some icon => st.setIcon id { icon with ref_count := icon.ref_count + 1 }

/-- `cache_icon_unref` (lines 556-605).  A reference count above 1 is
just decremented.  Otherwise the count reaches 0: if the entry's node is
linked in the recently-used list it is unlinked there first (and the
list counter decremented), and then the entry is freed unconditionally
(pixbuf released, optional fields and the struct itself freed). -/
def cache_icon_unref (st : FactoryState) (id : Nat) : FactoryState :=
  match st.getIcon id with
  | none => st
  | some icon =>
    if icon.ref_count > 1 then
      st.setIcon id { icon with ref_count := icon.ref_count - 1 }
    else
      let st :=
        if st.recently_used.contains id then
          { st with recently_used := st.recently_used.erase id,
                    recently_used_count := st.recently_used_count - 1 }
        else st
      st.freeIcon id

/-- `nautilus_icon_factory_possibly_free_cached_icon` (lines 608-635),
the `g_hash_table_foreach_remove` callback of the sweep.  `inList`
stands for `icon->recently_used_node.next != NULL`.  Returns the
remove-this-entry decision together with the (possibly aged) entry.
Note the age test: both branches of `if (icon->age > ICON_MAX_AGE)`
return TRUE, exactly as in the C source. -/
def nautilus_icon_factory_possibly_free_cached_icon (inList : Bool) (icon : CacheIcon) :
    Bool × CacheIcon :=
  if inList then (false, icon)
  else if icon.pixbuf_ref_count > 1 then (false, icon)
  else
    let icon := { icon with age := icon.age + 1 }
    if icon.age > ICON_MAX_AGE then (true, icon)
    else (true, icon)

/-- One step of the sweep's `g_hash_table_foreach_remove`: run the
callback on the hash node `kv`; on TRUE remove the node (which fires the
value destroy notifier `cache_icon_unref`). -/
def sweep_step (st : FactoryState) (kv : CacheKey × Nat) : FactoryState :=
  match st.getIcon kv.2 with
  | none => st
  | some icon =>
    let inList := st.recently_used.contains kv.2
    let (remove, icon') := nautilus_icon_factory_possibly_free_cached_icon inList icon
    let st := st.setIcon kv.2 icon'
    if remove then
      cache_icon_unref { st with icon_cache := st.icon_cache.erase kv } kv.2
    else st

/-- `nautilus_icon_factory_sweep` (lines 641-654): run the callback over
every hash node, then clear the pending-sweep flag. -/
def nautilus_icon_factory_sweep (st : FactoryState) : FactoryState :=
  let st' := st.icon_cache.foldl sweep_step st
  { st' with sweep_timer := false }

/-- `nautilus_icon_factory_schedule_sweep` (lines 657-667). -/
def nautilus_icon_factory_schedule_sweep (st : FactoryState) : FactoryState :=
  if st.sweep_timer then st else { st with sweep_timer := true }

/-- `mark_recently_used` (lines 672-720).  No-op when `node->prev ==
head`, i.e. the node is the list's first element.  A node already
elsewhere in the list is unlinked in place and reinserted at the head.
A node new to the list bumps the counter when below `ICON_CACHE_COUNT`;
otherwise the last node (`head->prev`) is unlinked — its entry is not
freed — and the counter is unchanged. -/
def mark_recently_used (st : FactoryState) (id : Nat) : FactoryState :=
  if st.recently_used.head? = some id then st
  else if st.recently_used.contains id then
    { st with recently_used := id :: st.recently_used.erase id }
  else if st.recently_used_count < ICON_CACHE_COUNT then
    { st with recently_used := id :: st.recently_used,
              recently_used_count := st.recently_used_count + 1 }
  else
    { st with recently_used := id :: st.recently_used.dropLast }

/-- `remove_all` (lines 722-727). -/
def remove_all (_key : CacheKey) : Bool := true

/-- `remove_non_pathnames` (lines 729-739): keep (return FALSE for)
keys whose name starts with `/`. -/
def remove_non_pathnames (key : CacheKey) : Bool :=
  if starts_with_slash key.name then false else true

/-- One step of a `g_hash_table_foreach_remove` over the icon cache with
a pure key predicate: remove the node when the predicate says so, firing
the value destroy notifier `cache_icon_unref`. -/
def foreach_remove_step (pred : CacheKey → Bool) (st : FactoryState)
    (kv : CacheKey × Nat) : FactoryState :=
  if pred kv.1 then
    cache_icon_unref { st with icon_cache := st.icon_cache.erase kv } kv.2
  else st

def g_hash_table_foreach_remove (st : FactoryState) (pred : CacheKey → Bool) :
    FactoryState :=
  st.icon_cache.foldl (foreach_remove_step pred) st

/-- `nautilus_icon_factory_clear` (lines 744-772): remove every mapping
when `clear_pathnames` is TRUE, only the non-pathname mappings when
FALSE.  (The spec's `clearAll(keepPathEntries)` has the opposite
polarity: `keepPathEntries = !clear_pathnames`.)  The trailing block of
the C function only runs disabled debug assertions about the
recently-used list; it mutates nothing. -/
def nautilus_icon_factory_clear (st : FactoryState) (clear_pathnames : Bool) :
    FactoryState :=
  g_hash_table_foreach_remove st
    (if clear_pathnames then remove_all else remove_non_pathnames)

/-- GLib `g_hash_table_remove` on the icon cache: find the (unique) node
whose key is `cache_key_equal` to the lookup key; if found, remove it,
fire the value destroy notifier `cache_icon_unref`, and report TRUE. -/
def g_hash_table_remove (st : FactoryState) (key : CacheKey) : Bool × FactoryState :=
  match st.icon_cache.find? (fun p => cache_key_equal p.1 key) with
  | some kv =>
    (true, cache_icon_unref { st with icon_cache := st.icon_cache.erase kv } kv.2)
  | none => (false, st)

/-- `nautilus_icon_factory_remove_from_cache` (lines 1816-1834).  The C
function builds `CacheKey lookup_key` on the stack and assigns only
`name`, `modifier` and `nominal_size`; the `force_nominal` field is read
uninitialized by `cache_key_hash` / `cache_key_equal`.  That unspecified
stack value is made explicit here as the first parameter. -/
def nautilus_icon_factory_remove_from_cache (uninitialized_force_nominal : Bool)
    (st : FactoryState) (icon_name : String) (modifier : Option String)
    (size : Nat) : Bool × FactoryState :=
  g_hash_table_remove st
    { name := icon_name, modifier := modifier, nominal_size := size,
      force_nominal := uninitialized_force_nominal }

/-- The slice of a `GtkIconInfo` that `create_normal_cache_icon` reads:
the base size and the theme-resolved filename (which GTK may report as
NULL for builtin pixbufs). -/
structure IconInfo where
  base_size : Nat
  filename : Option String
  deriving Repr, DecidableEq

/-- The external collaborators consumed by the cache (spec section 6):
`stat` yields `(S_ISREG, st_mtime)` when the stat call succeeds;
`gtk_icon_theme_lookup_icon` resolves a themed icon name at a nominal
size; `load_icon_file` (lines 1232-1314, consumed as an opaque "render
icon at size" capability) reports whether decoding the file at the given
base size, nominal size and force flag produces a pixbuf. -/
structure Env where
  stat : String → Option (Bool × Int)
  gtk_icon_theme_lookup_icon : String → Nat → Option IconInfo
  load_icon_file : String → Nat → Nat → Bool → Bool

/-- `create_normal_cache_icon` (lines 1316-1399).  For an absolute path
the file is stat'ed: a failed stat or a non-regular file leaves
`filename` NULL (so the function returns NULL), otherwise `mtime` is
taken from the stat.  For a themed name, the modifier (if any) is
appended with a dash and the theme is consulted; a failed lookup or a
NULL filename returns NULL.  A successful `load_icon_file` then yields a
fresh entry (`cache_icon_new`: refcount 1, pixbuf owned by the entry,
age 0) stamped with `mtime`. -/
def create_normal_cache_icon (env : Env) (icon : String) (modifier : Option String)
    (nominal_size : Nat) (force_nominal : Bool) : Option CacheIcon :=
  if starts_with_slash icon then
    match env.stat icon with
    | some (true, m) =>
      if env.load_icon_file icon 0 nominal_size force_nominal then
        some { ref_count := 1, pixbuf_ref_count := 1, mtime := m, age := 0 }
      else none
    | _ => none
  else
    let name_with_modifier :=
      match modifier with
      | some m => icon ++ "-" ++ m
      | none => icon
    match env.gtk_icon_theme_lookup_icon name_with_modifier nominal_size with
    | none => none
    | some info =>
      match info.filename with
      | none => none
      | some filename =>
        if env.load_icon_file filename info.base_size nominal_size force_nominal then
          some { ref_count := 1, pixbuf_ref_count := 1, mtime := 0, age := 0 }
        else none

/-- `lookup_icon_from_cache` (lines 1401-1431): hash-table lookup by
`cache_key_equal` on the four-tuple key. -/
def lookup_icon_from_cache (st : FactoryState) (icon : String)
    (modifier : Option String) (nominal_size : Nat) (force_nominal : Bool) :
    Option Nat :=
  (st.icon_cache.find? (fun p => cache_key_equal p.1
    { name := icon, modifier := modifier, nominal_size := nominal_size,
      force_nominal := force_nominal })).map (fun p => p.2)

/-- GLib `g_hash_table_insert` on the icon cache: when a key equal to
`key` is already present, its value is replaced (the old value going
through the destroy notifier `cache_icon_unref`, the new key being
freed); otherwise a new node is added. -/
def g_hash_table_insert (st : FactoryState) (key : CacheKey) (id : Nat) :
    FactoryState :=
  match st.icon_cache.find? (fun p => cache_key_equal p.1 key) with
  | some kv =>
    let cache' := st.icon_cache.map
      (fun p => if cache_key_equal p.1 key then (p.1, id) else p)
    let st := { st with icon_cache := cache' }
    cache_icon_unref st kv.2
  | none =>
    { st with icon_cache := st.icon_cache ++ [(key, id)] }

/-- Allocate a fresh heap id for a newly created entry. -/
def FactoryState.allocIcon (st : FactoryState) (icon : CacheIcon) :
    Nat × FactoryState :=
  (st.next_id,
   { st with icons := st.icons ++ [(st.next_id, icon)], next_id := st.next_id + 1 })

/-- `cached_icon->age = 0;` (line 1511). -/
def reset_age (st : FactoryState) (id : Nat) : FactoryState :=
  match st.getIcon id with
  | none => st
  | some icon => st.setIcon id { icon with age := 0 }

/-- `get_icon_from_cache` (lines 1441-1517).  NULL name fails the
`g_return_val_if_fail` and yields NULL.  A cache hit on an absolute-path
name is re-validated against `stat`; a vanished, non-regular or
modified file demotes the hit to a miss.  On a miss the entry is
synthesized; on failure with a modifier the synthesis is retried without
it; on failure again the fallback entry is used (referenced, not
re-created).  The (possibly fallback) entry is inserted under the
original four-tuple key, a caller reference is added, the entry is
promoted in the recency list with its age reset, and a sweep is
scheduled. -/
def get_icon_from_cache (env : Env) (st : FactoryState) (icon? : Option String)
    (modifier : Option String) (nominal_size : Nat) (force_nominal : Bool) :
    Option Nat × FactoryState :=
  match icon? with
  | none => (none, st)
  | some icon =>
    let cached := lookup_icon_from_cache st icon modifier nominal_size force_nominal
    let cached :=
      match cached with
      | some id =>
        if starts_with_slash icon then
          match st.getIcon id with
          | some ci =>
            match env.stat icon with
            | some (true, m) => if m ≠ ci.mtime then none else some id
            | _ => none
          | none => none
        else some id
      | none => none
    let r :=
      match cached with
      | some id => (id, st)
      | none =>
        let new_icon := create_normal_cache_icon env icon modifier nominal_size force_nominal
        let new_icon :=
          match new_icon, modifier with
          | none, some _ => create_normal_cache_icon env icon none nominal_size force_nominal
          | r, _ => r
        let p :=
          match new_icon with
          | some ci => st.allocIcon ci
          | none => (st.fallback_icon, cache_icon_ref st st.fallback_icon)
        let key : CacheKey :=
          { name := icon, modifier := modifier, nominal_size := nominal_size,
            force_nominal := force_nominal }
        (p.1, g_hash_table_insert p.2 key p.1)
    let st := cache_icon_ref r.2 r.1
    let st := mark_recently_used st r.1
    let st := reset_age st r.1
    let st := nautilus_icon_factory_schedule_sweep st
    (some r.1, st)

/-- The factory right after `nautilus_icon_factory_instance_init`
(lines 422-474): empty hash table, empty recently-used list, and the
fallback entry freshly built by `cache_icon_new` (heap id 0). -/
def initial_factory : FactoryState :=
  { icons := [(0, { ref_count := 1, pixbuf_ref_count := 1, mtime := 0, age := 0 })],
    icon_cache := [], recently_used := [], recently_used_count := 0,
    fallback_icon := 0, sweep_timer := false, next_id := 1 }

/-! ### Concrete states and environments used to exercise the operations -/

/-- A fallback-style entry record. -/
def fbIcon : CacheIcon := { ref_count := 1, pixbuf_ref_count := 1, mtime := 0, age := 0 }

/-- A plain single-reference entry with a private pixbuf and age 0. -/
def youngIcon : CacheIcon := { ref_count := 1, pixbuf_ref_count := 1, mtime := 0, age := 0 }

/-- A state with one non-recent cached entry (id 1) besides the fallback. -/
def oneEntryState : FactoryState :=
  { icons := [(0, fbIcon), (1, youngIcon)],
    icon_cache := [(⟨"a", none, 48, false⟩, 1)],
    recently_used := [], recently_used_count := 0,
    fallback_icon := 0, sweep_timer := true, next_id := 2 }

/-- A state whose cached entry (id 1) is linked in the recency list. -/
def listedState : FactoryState :=
  { icons := [(0, fbIcon), (1, youngIcon)],
    icon_cache := [(⟨"a", none, 48, false⟩, 1)],
    recently_used := [1], recently_used_count := 1,
    fallback_icon := 0, sweep_timer := true, next_id := 2 }

/-- A state with one pathname-keyed and one name-keyed mapping, both
entries carrying exactly the hash table's reference; entry 2 is in the
recency list. -/
def mixedState : FactoryState :=
  { icons := [(0, fbIcon), (1, youngIcon), (2, youngIcon)],
    icon_cache := [(⟨"/p", none, 48, false⟩, 1), (⟨"b", none, 48, false⟩, 2)],
    recently_used := [2, 0], recently_used_count := 2,
    fallback_icon := 0, sweep_timer := true, next_id := 3 }

/-- A state holding one mapping whose key has `force_nominal = true`. -/
def forceKeyState : FactoryState :=
  { icons := [(0, fbIcon), (1, youngIcon)],
    icon_cache := [(⟨"n", none, 48, true⟩, 1)],
    recently_used := [], recently_used_count := 0,
    fallback_icon := 0, sweep_timer := true, next_id := 2 }

/-- An environment whose theme resolves every icon name to a loadable
file of the same name. -/
def themeEnv : Env :=
  { stat := fun _ => none,
    gtk_icon_theme_lookup_icon := fun name _ => some { base_size := 0, filename := some name },
    load_icon_file := fun _ _ _ _ => true }

/-- An environment where every lookup and load fails. -/
def barrenEnv : Env :=
  { stat := fun _ => none,
    gtk_icon_theme_lookup_icon := fun _ _ => none,
    load_icon_file := fun _ _ _ _ => false }

/-- An environment where `/thumb` is a regular file with mtime 7 and
file loads succeed. -/
def fileEnv : Env :=
  { stat := fun p => if p = "/thumb" then some (true, 7) else none,
    gtk_icon_theme_lookup_icon := fun _ _ => none,
    load_icon_file := fun _ _ _ _ => true }

/-- A state caching `/thumb` (entry 1) with stored mtime 0. -/
def staleState : FactoryState :=
  { icons := [(0, fbIcon), (1, youngIcon)],
    icon_cache := [(⟨"/thumb", none, 48, false⟩, 1)],
    recently_used := [1], recently_used_count := 1,
    fallback_icon := 0, sweep_timer := true, next_id := 2 }

/-- Twenty-one distinct icon names. -/
def scenarioNames : List String :=
  ["a","b","c","d","e","f","g","h","i","j","k","l","m","n","o","p","q","r","s","t","u"]

/-- The factory after `get` on each of the twenty-one distinct names in
order, starting from the freshly initialized factory. -/
def scenarioFinal : FactoryState :=
  scenarioNames.foldl
    (fun st name => (get_icon_from_cache themeEnv st (some name) none 48 false).2)
    initial_factory

/-- A state whose recency list is exactly at capacity (ids 1..20, most
recent first). -/
def cap20State : FactoryState :=
  { icons := [(0, fbIcon)],
    icon_cache := [],
    recently_used :=
      [1, 2, 3, 4, 5, 6, 7, 8, 9, 10, 11, 12, 13, 14, 15, 16, 17, 18, 19, 20],
    recently_used_count := 20,
    fallback_icon := 0, sweep_timer := false, next_id := 21 }

/-- The number of mappings in `cache` whose value is the entry `id`. -/
def mappings_to (cache : List (CacheKey × Nat)) (id : Nat) : Nat :=
  (cache.filter (fun kv => kv.2 = id)).length

/-- The reference-count accounting invariant relating the recency list
to the hash table in quiescent states: every listed entry other than the
fallback is alive, is the value of at least one mapping, and its
reference count is exactly the number of mappings holding it (the hash
table owns one reference per mapping; callers hold entry references only
transiently inside `get`). -/
def ListInv (st : FactoryState) : Prop :=
  ∀ id ∈ st.recently_used, id ≠ st.fallback_icon →
    ((st.getIcon id).map (fun icon => icon.ref_count) =
        some (mappings_to st.icon_cache id) ∧
      0 < mappings_to st.icon_cache id)

instance : DecidablePred ListInv := fun st => by
  unfold ListInv
  infer_instance

/-! ### Helper lemmas about the heap and the state operations -/

theorem lookupIcon_setIconList_self {l : List (Nat × CacheIcon)} {id : Nat}
    {i0 : CacheIcon} (h : lookupIcon l id = some i0) (icon : CacheIcon) :
    lookupIcon (setIconList l id icon) id = some icon := by
  induction l with
  | nil => simp [lookupIcon] at h
  | cons p rest ih =>
    obtain ⟨i, ic⟩ := p
    by_cases hi : i = id
    · simp [lookupIcon, setIconList, hi]
    · simp [lookupIcon, setIconList, hi] at h ⊢
      exact ih h

theorem lookupIcon_setIconList_ne {l : List (Nat × CacheIcon)} {id id' : Nat}
    (h : id' ≠ id) (icon : CacheIcon) :
    lookupIcon (setIconList l id icon) id' = lookupIcon l id' := by
  induction l with
  | nil => simp [setIconList]
  | cons p rest ih =>
    obtain ⟨i, ic⟩ := p
    by_cases hi : i = id
    · subst hi
      simp [lookupIcon, setIconList, Ne.symm h]
    · simp [lookupIcon, setIconList, hi]
      by_cases hi' : i = id'
      · simp [hi']
      · simp [hi', ih]

theorem lookupIcon_freeIconList_self (l : List (Nat × CacheIcon)) (id : Nat) :
    lookupIcon (freeIconList l id) id = none := by
  induction l with
  | nil => simp [freeIconList, lookupIcon]
  | cons p rest ih =>
    obtain ⟨i, ic⟩ := p
    by_cases hi : i = id
    · simpa [freeIconList, lookupIcon, List.filter_cons, hi, bne_iff_ne] using ih
    · simpa [freeIconList, lookupIcon, List.filter_cons, hi, bne_iff_ne] using ih

theorem lookupIcon_freeIconList_ne {id id' : Nat} (l : List (Nat × CacheIcon))
    (h : id' ≠ id) :
    lookupIcon (freeIconList l id) id' = lookupIcon l id' := by
  induction l with
  | nil => simp [freeIconList]
  | cons p rest ih =>
    obtain ⟨i, ic⟩ := p
    by_cases hi : i = id
    · subst hi
      simpa [freeIconList, lookupIcon, List.filter_cons, Ne.symm h, bne_iff_ne] using ih
    · by_cases hi' : i = id'
      · simp [freeIconList, lookupIcon, List.filter_cons, hi, hi', bne_iff_ne, h]
      · simpa [freeIconList, lookupIcon, List.filter_cons, hi, hi', bne_iff_ne] using ih

theorem lookupIcon_append (l l' : List (Nat × CacheIcon)) (id : Nat) :
    lookupIcon (l ++ l') id =
      match lookupIcon l id with
      | some x => some x
      | none => lookupIcon l' id := by
  induction l with
  | nil => simp [lookupIcon]
  | cons p rest ih =>
    obtain ⟨i, ic⟩ := p
    by_cases hi : i = id
    · simp [lookupIcon, hi]
    · simp [lookupIcon, hi, ih]

theorem cache_icon_ref_parts (st : FactoryState) (id : Nat) :
    (cache_icon_ref st id).icon_cache = st.icon_cache ∧
    (cache_icon_ref st id).recently_used = st.recently_used ∧
    (cache_icon_ref st id).recently_used_count = st.recently_used_count ∧
    (cache_icon_ref st id).fallback_icon = st.fallback_icon ∧
    (cache_icon_ref st id).sweep_timer = st.sweep_timer ∧
    (cache_icon_ref st id).next_id = st.next_id := by
  cases h : st.getIcon id <;>
    simp [cache_icon_ref, h, FactoryState.setIcon]

theorem cache_icon_ref_getIcon {st : FactoryState} {id : Nat} {icon : CacheIcon}
    (h : st.getIcon id = some icon) :
    (cache_icon_ref st id).getIcon id =
      some { icon with ref_count := icon.ref_count + 1 } := by
  simp only [cache_icon_ref, h]
  exact lookupIcon_setIconList_self h _

theorem cache_icon_ref_getIcon_ne {st : FactoryState} {id id' : Nat}
    (h : id' ≠ id) :
    (cache_icon_ref st id).getIcon id' = st.getIcon id' := by
  cases hh : st.getIcon id
  · simp [cache_icon_ref, hh]
  · simp only [cache_icon_ref, hh]
    exact lookupIcon_setIconList_ne h _

theorem cache_icon_unref_parts (st : FactoryState) (id : Nat) :
    (cache_icon_unref st id).icon_cache = st.icon_cache ∧
    (cache_icon_unref st id).fallback_icon = st.fallback_icon ∧
    (cache_icon_unref st id).sweep_timer = st.sweep_timer ∧
    (cache_icon_unref st id).next_id = st.next_id := by
  cases h : st.getIcon id with
  | none => simp [cache_icon_unref, h]
  | some icon =>
    by_cases hr : icon.ref_count > 1 <;>
      simp [cache_icon_unref, h, hr, FactoryState.setIcon, FactoryState.freeIcon] <;>
      split <;> simp

theorem cache_icon_unref_getIcon_ne {st : FactoryState} {id id' : Nat}
    (h : id' ≠ id) :
    (cache_icon_unref st id).getIcon id' = st.getIcon id' := by
  cases hh : st.getIcon id with
  | none => simp [cache_icon_unref, hh]
  | some icon =>
    by_cases hr : icon.ref_count > 1
    · simp only [cache_icon_unref, hh, if_pos hr]
      exact lookupIcon_setIconList_ne h _
    · simp only [cache_icon_unref, hh, if_neg hr]
      split <;> exact lookupIcon_freeIconList_ne _ h

theorem cache_icon_unref_recently_used (st : FactoryState) (id : Nat) :
    (cache_icon_unref st id).recently_used = st.recently_used ∨
    (cache_icon_unref st id).recently_used = st.recently_used.erase id := by
  cases hh : st.getIcon id with
  | none => simp [cache_icon_unref, hh]
  | some icon =>
    by_cases hr : icon.ref_count > 1
    · simp [cache_icon_unref, hh, hr, FactoryState.setIcon]
    · simp only [cache_icon_unref, hh, if_neg hr]
      split <;> simp [FactoryState.freeIcon]

theorem cache_icon_unref_mem_recently_used {st : FactoryState} {id id' : Nat}
    (h : id' ≠ id) :
    (id' ∈ (cache_icon_unref st id).recently_used ↔ id' ∈ st.recently_used) := by
  rcases cache_icon_unref_recently_used st id with hc | hc <;> rw [hc]
  exact List.mem_erase_of_ne h

theorem cache_icon_unref_nodup {st : FactoryState} (id : Nat)
    (h : st.recently_used.Nodup) :
    (cache_icon_unref st id).recently_used.Nodup := by
  rcases cache_icon_unref_recently_used st id with hc | hc <;> rw [hc]
  · exact h
  · exact h.erase id

theorem reset_age_parts (st : FactoryState) (id : Nat) :
    (reset_age st id).icon_cache = st.icon_cache ∧
    (reset_age st id).recently_used = st.recently_used ∧
    (reset_age st id).recently_used_count = st.recently_used_count ∧
    (reset_age st id).fallback_icon = st.fallback_icon ∧
    (reset_age st id).sweep_timer = st.sweep_timer ∧
    (reset_age st id).next_id = st.next_id := by
  cases h : st.getIcon id <;>
    simp [reset_age, h, FactoryState.setIcon]

theorem reset_age_getIcon {st : FactoryState} {id : Nat} {icon : CacheIcon}
    (h : st.getIcon id = some icon) :
    (reset_age st id).getIcon id = some { icon with age := 0 } := by
  simp only [reset_age, h]
  exact lookupIcon_setIconList_self h _

theorem schedule_sweep_parts (st : FactoryState) :
    (nautilus_icon_factory_schedule_sweep st).icons = st.icons ∧
    (nautilus_icon_factory_schedule_sweep st).icon_cache = st.icon_cache ∧
    (nautilus_icon_factory_schedule_sweep st).recently_used = st.recently_used ∧
    (nautilus_icon_factory_schedule_sweep st).recently_used_count = st.recently_used_count ∧
    (nautilus_icon_factory_schedule_sweep st).fallback_icon = st.fallback_icon ∧
    (nautilus_icon_factory_schedule_sweep st).next_id = st.next_id := by
  unfold nautilus_icon_factory_schedule_sweep
  split <;> simp

theorem mark_recently_used_parts (st : FactoryState) (id : Nat) :
    (mark_recently_used st id).icons = st.icons ∧
    (mark_recently_used st id).icon_cache = st.icon_cache ∧
    (mark_recently_used st id).fallback_icon = st.fallback_icon ∧
    (mark_recently_used st id).sweep_timer = st.sweep_timer ∧
    (mark_recently_used st id).next_id = st.next_id := by
  unfold mark_recently_used
  split <;> [skip; split <;> [skip; split]] <;> simp

/-! ### Sweep preservation lemmas -/

theorem sweep_step_preserves {st : FactoryState} {id : Nat} {k : CacheKey}
    {icon : CacheIcon} (kv : CacheKey × Nat)
    (h1 : id ∈ st.recently_used) (h2 : (k, id) ∈ st.icon_cache)
    (h3 : st.getIcon id = some icon) :
    id ∈ (sweep_step st kv).recently_used ∧
    (k, id) ∈ (sweep_step st kv).icon_cache ∧
    (sweep_step st kv).getIcon id = some icon := by
  cases hkv : st.getIcon kv.2 with
  | none => simp only [sweep_step, hkv]; exact ⟨h1, h2, h3⟩
  | some icon2 =>
    by_cases hid : kv.2 = id
    · subst hid
      have hic : icon2 = icon := by rw [hkv] at h3; injection h3
      subst hic
      have hc : st.recently_used.contains kv.2 = true := by simpa using h1
      simp only [sweep_step, hkv, hc, nautilus_icon_factory_possibly_free_cached_icon,
        if_pos rfl, if_true]
      refine ⟨h1, h2, ?_⟩
      simpa [FactoryState.setIcon, FactoryState.getIcon] using
        lookupIcon_setIconList_self h3 icon2
    · have hne : id ≠ kv.2 := fun h => hid h.symm
      have hpairne : (k, id) ≠ kv := by
        intro h
        exact hid (by rw [← h])
      simp only [sweep_step, hkv]
      set pr := nautilus_icon_factory_possibly_free_cached_icon
        (st.recently_used.contains kv.2) icon2 with hpr
      have hset : (st.setIcon kv.2 pr.2).getIcon id = some icon := by
        simpa [FactoryState.setIcon, FactoryState.getIcon] using
          (lookupIcon_setIconList_ne (l := st.icons) hne pr.2).trans h3
      by_cases hrem : pr.1
      · simp only [hrem, if_true]
        set st1 : FactoryState :=
          { st.setIcon kv.2 pr.2 with
            icon_cache := (st.setIcon kv.2 pr.2).icon_cache.erase kv } with hst1
        have hmem : id ∈ (cache_icon_unref st1 kv.2).recently_used := by
          rw [cache_icon_unref_mem_recently_used hne]
          simpa [hst1, FactoryState.setIcon] using h1
        have hcache : (k, id) ∈ (cache_icon_unref st1 kv.2).icon_cache := by
          rw [(cache_icon_unref_parts st1 kv.2).1]
          simp only [hst1, FactoryState.setIcon]
          exact (List.mem_erase_of_ne hpairne).mpr h2
        have hicon : (cache_icon_unref st1 kv.2).getIcon id = some icon := by
          rw [cache_icon_unref_getIcon_ne hne]
          simpa [hst1, FactoryState.setIcon, FactoryState.getIcon] using hset
        exact ⟨hmem, hcache, hicon⟩
      · simp only [hrem, if_false]
        refine ⟨?_, ?_, hset⟩
        · simpa [FactoryState.setIcon] using h1
        · simpa [FactoryState.setIcon] using h2

theorem sweep_foldl_preserves {id : Nat} {k : CacheKey} {icon : CacheIcon} :
    ∀ (l : List (CacheKey × Nat)) (st : FactoryState),
      id ∈ st.recently_used → (k, id) ∈ st.icon_cache → st.getIcon id = some icon →
      id ∈ (l.foldl sweep_step st).recently_used ∧
      (k, id) ∈ (l.foldl sweep_step st).icon_cache ∧
      (l.foldl sweep_step st).getIcon id = some icon := by
  intro l
  induction l with
  | nil => intro st h1 h2 h3; exact ⟨h1, h2, h3⟩
  | cons kv rest ih =>
    intro st h1 h2 h3
    obtain ⟨p1, p2, p3⟩ := sweep_step_preserves kv h1 h2 h3
    exact ih (sweep_step st kv) p1 p2 p3

/-! ### Claim C1 — sweep age threshold -/

/-- C1 (code bug evidence): the sweep callback evicts an entry that is
not in the recency list and whose pixbuf has no outside holders even
though its age, incremented by this same pass, is 1, far below
`ICON_MAX_AGE = 10` — the age guard in
`nautilus_icon_factory_possibly_free_cached_icon` falls through to an
unconditional TRUE, so such an entry is removed instead of being skipped
with only its age incremented.  Concretely, a full sweep of a state
holding one such entry empties the mapping and frees the entry. -/
theorem possibly_free_evicts_young_entry :
    (1 ≤ ICON_MAX_AGE) ∧
    nautilus_icon_factory_possibly_free_cached_icon false youngIcon =
      (true, { ref_count := 1, pixbuf_ref_count := 1, mtime := 0, age := 1 }) ∧
    (nautilus_icon_factory_sweep oneEntryState).icon_cache = [] ∧
    (nautilus_icon_factory_sweep oneEntryState).getIcon 1 = none := by decide

/-! ### Claim C2 — release at refcount zero -/

/-- C2 (counterexample): releasing the last reference of entry 1 while
that entry is linked in the recency list frees it immediately — its heap
record is gone right after `cache_icon_unref` returns — contradicting
the claim that destruction is deferred until the entry leaves the list. -/
theorem unref_frees_listed_entry_immediately :
    (1 ∈ listedState.recently_used) ∧
    listedState.getIcon 1 = some youngIcon ∧
    youngIcon.ref_count = 1 ∧
    (cache_icon_unref listedState 1).getIcon 1 = none ∧
    (1 ∈ (cache_icon_unref listedState 1).recently_used) = False := by decide

/-- C2 (amended): `cache_icon_unref` decrements a reference count above
1; when the count reaches 0 the entry is always freed immediately — if
its node is linked in the Recency List it is first unlinked (and the
list counter decremented) and then freed, so at the moment of physical
destruction the entry's refcount is zero and it is no longer in the
list, but destruction is never deferred. -/
theorem cache_icon_unref_spec (st : FactoryState) (id : Nat) (icon : CacheIcon)
    (h : st.getIcon id = some icon) (hnd : st.recently_used.Nodup) :
    (icon.ref_count > 1 →
      cache_icon_unref st id =
        st.setIcon id { icon with ref_count := icon.ref_count - 1 }) ∧
    (icon.ref_count ≤ 1 →
      ((cache_icon_unref st id).getIcon id = none ∧
       id ∉ (cache_icon_unref st id).recently_used ∧
       (id ∈ st.recently_used →
         (cache_icon_unref st id).recently_used = st.recently_used.erase id ∧
         (cache_icon_unref st id).recently_used_count = st.recently_used_count - 1) ∧
       (id ∉ st.recently_used →
         (cache_icon_unref st id).recently_used = st.recently_used ∧
         (cache_icon_unref st id).recently_used_count = st.recently_used_count))) := by
  constructor
  · intro hr
    simp [cache_icon_unref, h, hr]
  · intro hr
    have hr' : ¬ icon.ref_count > 1 := by omega
    have h' : lookupIcon st.icons id = some icon := h
    by_cases hm : id ∈ st.recently_used
    · have hc : st.recently_used.contains id = true := by simpa using hm
      refine ⟨?_, ?_, fun _ => ⟨?_, ?_⟩, fun hnm => absurd hm hnm⟩ <;>
        simp [cache_icon_unref, FactoryState.getIcon, h', hr', hc, hm, FactoryState.freeIcon,
          lookupIcon_freeIconList_self, hnd.not_mem_erase]
    · have hc : ¬ st.recently_used.contains id = true := by simpa using hm
      refine ⟨?_, ?_, fun hm' => absurd hm' hm, fun _ => ⟨?_, ?_⟩⟩ <;>
        simp [cache_icon_unref, FactoryState.getIcon, h', hr', hc, FactoryState.freeIcon,
          lookupIcon_freeIconList_self, hm]

/-- C2 witness: the amended statement applied to the concrete state
whose listed entry 1 holds its last reference. -/
theorem cache_icon_unref_spec_witness :
    (cache_icon_unref listedState 1).getIcon 1 = none ∧
    1 ∉ (cache_icon_unref listedState 1).recently_used := by
  obtain ⟨-, h0⟩ := cache_icon_unref_spec listedState 1 youngIcon (by decide) (by decide)
  obtain ⟨h1, h2, -, -⟩ := h0 (by decide)
  exact ⟨h1, h2⟩

/-! ### Claim C3 — recency list protects from the sweep -/

/-- C3: an entry linked in the Recency List when the sweep runs is never
evicted by that sweep pass, whatever its age or its pixbuf's outside
holders: each of its mappings survives the pass and its heap record is
untouched. -/
theorem sweep_keeps_listed_entries (st : FactoryState) (id : Nat) (k : CacheKey)
    (icon : CacheIcon) (hmem : id ∈ st.recently_used)
    (hmap : (k, id) ∈ st.icon_cache) (hicon : st.getIcon id = some icon) :
    (k, id) ∈ (nautilus_icon_factory_sweep st).icon_cache ∧
    (nautilus_icon_factory_sweep st).getIcon id = some icon ∧
    id ∈ (nautilus_icon_factory_sweep st).recently_used := by
  obtain ⟨p1, p2, p3⟩ := sweep_foldl_preserves st.icon_cache st hmem hmap hicon
  exact ⟨p2, p3, p1⟩

/-- C3 witness: the protected entry 1 of the concrete listed state
survives a concrete sweep. -/
theorem sweep_keeps_listed_entries_witness :
    (⟨"a", none, 48, false⟩, 1) ∈ (nautilus_icon_factory_sweep listedState).icon_cache ∧
    (nautilus_icon_factory_sweep listedState).getIcon 1 = some youngIcon ∧
    1 ∈ (nautilus_icon_factory_sweep listedState).recently_used :=
  sweep_keeps_listed_entries listedState 1 ⟨"a", none, 48, false⟩ youngIcon
    (by decide) (by decide) (by decide)

/-! ### Claim C6 — key equality and hashing -/

theorem strcmp_eq_zero_iff : ∀ (a b : List Nat), 0 ∉ a → 0 ∉ b →
    (strcmp a b = 0 ↔ a = b) := by
  intro a
  induction a with
  | nil =>
    intro b _ hb
    cases b with
    | nil => simp [strcmp]
    | cons c bs =>
      have hc : c ≠ 0 := fun h => hb (h ▸ List.mem_cons_self c bs)
      constructor
      · intro h
        simp only [strcmp] at h
        exact absurd (show c = 0 by omega) hc
      · intro h
        exact absurd h (by simp)
  | cons c as ih =>
    intro b ha hb
    cases b with
    | nil =>
      have hc : c ≠ 0 := fun h => ha (h ▸ List.mem_cons_self c as)
      constructor
      · intro h
        simp only [strcmp] at h
        exact absurd (show c = 0 by omega) hc
      · intro h
        exact absurd h (by simp)
    | cons d bs =>
      by_cases hcd : c = d
      · subst hcd
        have hrec := ih bs (fun h => ha (List.mem_cons_of_mem _ h))
          (fun h => hb (List.mem_cons_of_mem _ h))
        simp [strcmp, hrec]
      · constructor
        · intro h
          simp only [strcmp, if_neg hcd] at h
          exact absurd (show c = d by omega) hcd
        · intro h
          injection h with h1 _
          exact absurd h1 hcd

theorem g_str_hash_congr {s t : String} (h : strBytes s = strBytes t) :
    g_str_hash s = g_str_hash t := by
  simp [g_str_hash, h]

theorem g_str_hash_eq_zero_of_nil {s : String} (h : strBytes s = []) :
    g_str_hash s = 0 := by
  simp [g_str_hash, h, g_str_hash_bytes]

/-- C6: two keys compare equal iff their names agree byte for byte,
sizes and force flags agree, and their modifiers agree byte for byte
after coalescing NULL to the empty string (the null-safe comparison of
`eel_strcmp`); the hash is a deterministic function of the four fields,
and any two keys that compare equal hash equal — the NULL-vs-empty
modifier pair included, since `g_str_hash` of the empty string is 0 and
XOR by 0 is the identity. -/
theorem cache_key_equal_hash_spec (a b : CacheKey)
    (hna : 0 ∉ strBytes a.name) (hnb : 0 ∉ strBytes b.name)
    (hma : 0 ∉ strBytes (a.modifier.getD ""))
    (hmb : 0 ∉ strBytes (b.modifier.getD "")) :
    (cache_key_equal a b = true ↔
      (strBytes a.name = strBytes b.name ∧
       a.nominal_size = b.nominal_size ∧
       a.force_nominal = b.force_nominal ∧
       strBytes (a.modifier.getD "") = strBytes (b.modifier.getD ""))) ∧
    (cache_key_equal a b = true → cache_key_hash a = cache_key_hash b) := by
  have hchar : cache_key_equal a b = true ↔
      (strBytes a.name = strBytes b.name ∧
       a.nominal_size = b.nominal_size ∧
       a.force_nominal = b.force_nominal ∧
       strBytes (a.modifier.getD "") = strBytes (b.modifier.getD "")) := by
    unfold cache_key_equal eel_strcmp
    simp only [Bool.and_eq_true, decide_eq_true_eq, Option.getD_some]
    rw [strcmp_eq_zero_iff _ _ hna hnb, strcmp_eq_zero_iff _ _ hma hmb]
    tauto
  refine ⟨hchar, fun heq => ?_⟩
  obtain ⟨hn, hs, hf, hm⟩ := hchar.mp heq
  have hnh : g_str_hash a.name = g_str_hash b.name := g_str_hash_congr hn
  cases ham : a.modifier with
  | none =>
    cases hbm : b.modifier with
    | none => simp [cache_key_hash, ham, hbm, hnh, hs, hf]
    | some mb =>
      have hb : strBytes mb = [] := by
        rw [ham, hbm] at hm
        simpa [strBytes] using hm.symm
      have hmb0 : g_str_hash mb = 0 := g_str_hash_eq_zero_of_nil hb
      simp [cache_key_hash, ham, hbm, hnh, hs, hf, hmb0]
  | some ma =>
    cases hbm : b.modifier with
    | none =>
      have ha : strBytes ma = [] := by
        rw [ham, hbm] at hm
        simpa [strBytes] using hm
      have hma0 : g_str_hash ma = 0 := g_str_hash_eq_zero_of_nil ha
      simp [cache_key_hash, ham, hbm, hnh, hs, hf, hma0]
    | some mb =>
      have hmh : g_str_hash ma = g_str_hash mb :=
        g_str_hash_congr (by simpa [ham, hbm] using hm)
      simp [cache_key_hash, ham, hbm, hnh, hs, hf, hmh]

/-- C6 witness: the statement applied to the NULL-modifier key and the
otherwise identical empty-string-modifier key, which compare equal and
hash equal. -/
theorem cache_key_equal_hash_spec_witness :
    cache_key_hash ⟨"x", none, 48, false⟩ =
      cache_key_hash ⟨"x", some "", 48, false⟩ :=
  (cache_key_equal_hash_spec ⟨"x", none, 48, false⟩ ⟨"x", some "", 48, false⟩
    (by decide) (by decide) (by decide) (by decide)).2 (by decide)

/-! ### Claim C10 — explicit removal -/

/-- C10 (code bug evidence): `nautilus_icon_factory_remove_from_cache`
leaves the stack lookup key's `force_nominal` field uninitialized.  With
the unspecified stack value reading FALSE, the one mapping whose key has
the requested name, modifier and size (but `force_nominal = TRUE`) is
not removed and FALSE is returned; with the same arguments and the stack
value reading TRUE the mapping is removed — the result depends on an
uninitialized read, not only on the three supplied fields. -/
theorem remove_from_cache_uninitialized_read :
    ((⟨"n", none, 48, true⟩, 1) ∈ forceKeyState.icon_cache) ∧
    nautilus_icon_factory_remove_from_cache false forceKeyState "n" none 48 =
      (false, forceKeyState) ∧
    (nautilus_icon_factory_remove_from_cache true forceKeyState "n" none 48).1 =
      true := by decide

/-! ### Claim C5 — null results from get -/

/-- C5 (counterexample): `get` on the empty (non-NULL) name does not
return a null result — even with a barren theme it degrades to the
fallback entry (id 0), because the `g_return_val_if_fail` guard only
rejects a NULL name, not an empty one. -/
theorem get_empty_name_returns_fallback :
    (get_icon_from_cache barrenEnv initial_factory (some "") none 48 false).1 =
      some initial_factory.fallback_icon := by decide

/-- C5 (amended): `get` returns a null result if and only if the key's
name is NULL; for every non-NULL name — empty, missing from the theme,
or unrenderable alike — it returns a non-null entry (degrading to the
fallback), and no error is surfaced. -/
theorem get_null_iff_name_null (env : Env) (st : FactoryState)
    (icon? : Option String) (modifier : Option String) (nominal_size : Nat)
    (force_nominal : Bool) :
    (get_icon_from_cache env st icon? modifier nominal_size force_nominal).1 = none ↔
      icon? = none := by
  cases icon? with
  | none => simp [get_icon_from_cache]
  | some name => simp [get_icon_from_cache]

/-! ### Claim C4 — modifier retry and fallback substitution -/

theorem mark_recently_used_getIcon (st : FactoryState) (id x : Nat) :
    (mark_recently_used st id).getIcon x = st.getIcon x := by
  unfold FactoryState.getIcon
  rw [(mark_recently_used_parts st id).1]

theorem schedule_sweep_getIcon (st : FactoryState) (x : Nat) :
    (nautilus_icon_factory_schedule_sweep st).getIcon x = st.getIcon x := by
  unfold FactoryState.getIcon
  rw [(schedule_sweep_parts st).1]

/-- C4: on a miss where synthesis with the supplied modifier fails and
the modifier-stripped retry also fails, `get` answers with the
pre-existing fallback entry — not re-synthesized, its reference count
incremented (once for the inserted mapping and once for the caller) —
inserts the mapping under the original four-tuple key, and surfaces no
error (the result is non-null). -/
theorem get_fallback_substitution (env : Env) (st : FactoryState) (name mod : String)
    (n : Nat) (f : Bool) (fb : CacheIcon)
    (hl : lookup_icon_from_cache st name (some mod) n f = none)
    (h1 : create_normal_cache_icon env name (some mod) n f = none)
    (h2 : create_normal_cache_icon env name none n f = none)
    (hfb : st.getIcon st.fallback_icon = some fb) :
    (get_icon_from_cache env st (some name) (some mod) n f).1 =
      some st.fallback_icon ∧
    (get_icon_from_cache env st (some name) (some mod) n f).2.icon_cache =
      st.icon_cache ++
        [({ name := name, modifier := some mod, nominal_size := n,
            force_nominal := f }, st.fallback_icon)] ∧
    (get_icon_from_cache env st (some name) (some mod) n f).2.getIcon
        st.fallback_icon =
      some { fb with ref_count := fb.ref_count + 2, age := 0 } := by
  set K : CacheKey :=
    { name := name, modifier := some mod, nominal_size := n,
      force_nominal := f } with hK
  have hfind : st.icon_cache.find? (fun p => cache_key_equal p.1 K) = none := by
    have := hl
    unfold lookup_icon_from_cache at this
    rw [hK]
    exact Option.map_eq_none'.mp this
  set st1 := cache_icon_ref st st.fallback_icon with hst1
  have hst1_cache : st1.icon_cache = st.icon_cache := (cache_icon_ref_parts st _).1
  have hst1_get : st1.getIcon st.fallback_icon =
      some { fb with ref_count := fb.ref_count + 1 } := cache_icon_ref_getIcon hfb
  have hins : g_hash_table_insert st1 K st.fallback_icon =
      { st1 with icon_cache := st1.icon_cache ++ [(K, st.fallback_icon)] } := by
    unfold g_hash_table_insert
    rw [hst1_cache, hfind]
  have hget : get_icon_from_cache env st (some name) (some mod) n f =
      (some st.fallback_icon,
       nautilus_icon_factory_schedule_sweep
         (reset_age
           (mark_recently_used
             (cache_icon_ref (g_hash_table_insert st1 K st.fallback_icon)
               st.fallback_icon)
             st.fallback_icon)
           st.fallback_icon)) := by
    simp only [get_icon_from_cache, hl, h1, h2, hst1, hK]
  rw [hget]
  have hst2_cache : (g_hash_table_insert st1 K st.fallback_icon).icon_cache =
      st.icon_cache ++ [(K, st.fallback_icon)] := by
    rw [hins, hst1_cache]
  have hst2_get : (g_hash_table_insert st1 K st.fallback_icon).getIcon
      st.fallback_icon = some { fb with ref_count := fb.ref_count + 1 } := by
    rw [hins]
    exact hst1_get
  have hst3_cache : (cache_icon_ref (g_hash_table_insert st1 K st.fallback_icon)
      st.fallback_icon).icon_cache = st.icon_cache ++ [(K, st.fallback_icon)] :=
    ((cache_icon_ref_parts _ _).1).trans hst2_cache
  have hst3_get : (cache_icon_ref (g_hash_table_insert st1 K st.fallback_icon)
      st.fallback_icon).getIcon st.fallback_icon =
      some { fb with ref_count := fb.ref_count + 1 + 1 } := by
    have := cache_icon_ref_getIcon hst2_get
    simpa using this
  have hst4_cache : (mark_recently_used (cache_icon_ref (g_hash_table_insert st1 K
      st.fallback_icon) st.fallback_icon) st.fallback_icon).icon_cache =
      st.icon_cache ++ [(K, st.fallback_icon)] :=
    ((mark_recently_used_parts _ _).2.1).trans hst3_cache
  have hst4_get : (mark_recently_used (cache_icon_ref (g_hash_table_insert st1 K
      st.fallback_icon) st.fallback_icon) st.fallback_icon).getIcon
      st.fallback_icon = some { fb with ref_count := fb.ref_count + 1 + 1 } :=
    (mark_recently_used_getIcon _ _ _).trans hst3_get
  have hst5_cache : (reset_age (mark_recently_used (cache_icon_ref
      (g_hash_table_insert st1 K st.fallback_icon) st.fallback_icon)
      st.fallback_icon) st.fallback_icon).icon_cache =
      st.icon_cache ++ [(K, st.fallback_icon)] :=
    ((reset_age_parts _ _).1).trans hst4_cache
  have hst5_get : (reset_age (mark_recently_used (cache_icon_ref
      (g_hash_table_insert st1 K st.fallback_icon) st.fallback_icon)
      st.fallback_icon) st.fallback_icon).getIcon st.fallback_icon =
      some { fb with ref_count := fb.ref_count + 2, age := 0 } := by
    have := reset_age_getIcon hst4_get
    simpa [Nat.add_assoc] using this
  refine ⟨rfl, ?_, ?_⟩
  · exact ((schedule_sweep_parts _).2.1).trans hst5_cache
  · exact (schedule_sweep_getIcon _ _).trans hst5_get

/-- C4 witness: the fallback substitution at a concrete barren
environment and the initial factory. -/
theorem get_fallback_substitution_witness :
    (get_icon_from_cache barrenEnv initial_factory (some "ghost") (some "open")
        48 false).1 = some initial_factory.fallback_icon ∧
    (get_icon_from_cache barrenEnv initial_factory (some "ghost") (some "open")
        48 false).2.getIcon initial_factory.fallback_icon =
      some { fbIcon with ref_count := fbIcon.ref_count + 2, age := 0 } := by
  obtain ⟨ha, -, hc⟩ := get_fallback_substitution barrenEnv initial_factory "ghost"
    "open" 48 false fbIcon (by decide) (by decide) (by decide) (by decide)
  exact ⟨ha, hc⟩

/-! ### Claim C8 — stale path entries are refreshed -/

/-- C8: when a mapping already exists for an absolute-path key but the
file's current modification time `t1` differs from the entry's stored
mtime, `get` treats the lookup as a miss and resynthesizes: it returns a
freshly allocated entry (the allocator's next id, not the stale entry)
whose mtime field equals `t1`, not the stale value. -/
theorem get_stale_path_resynthesizes (env : Env) (st : FactoryState)
    (name : String) (mod : Option String) (n : Nat) (f : Bool)
    (id : Nat) (ci : CacheIcon) (t1 : Int)
    (hslash : starts_with_slash name = true)
    (hl : lookup_icon_from_cache st name mod n f = some id)
    (hgi : st.getIcon id = some ci)
    (hstat : env.stat name = some (true, t1))
    (hne : t1 ≠ ci.mtime)
    (hload : env.load_icon_file name 0 n f = true)
    (hfresh : st.getIcon st.next_id = none) :
    (get_icon_from_cache env st (some name) mod n f).1 = some st.next_id ∧
    ((get_icon_from_cache env st (some name) mod n f).2.getIcon st.next_id).map
        (fun i => i.mtime) = some t1 ∧
    st.next_id ≠ id := by
  have hidne : st.next_id ≠ id := by
    intro h
    rw [h, hgi] at hfresh
    exact Option.noConfusion hfresh
  obtain ⟨kv0, hfind0, hkv0⟩ := Option.map_eq_some'.mp hl
  have hcreate : create_normal_cache_icon env name mod n f =
      some { ref_count := 1, pixbuf_ref_count := 1, mtime := t1, age := 0 } := by
    simp [create_normal_cache_icon, hslash, hstat, hload]
  have hget : get_icon_from_cache env st (some name) mod n f =
      (some st.next_id,
       nautilus_icon_factory_schedule_sweep
         (reset_age
           (mark_recently_used
             (cache_icon_ref
               (g_hash_table_insert
                 (st.allocIcon
                   { ref_count := 1, pixbuf_ref_count := 1, mtime := t1, age := 0 }).2
                 { name := name, modifier := mod, nominal_size := n,
                   force_nominal := f }
                 st.next_id)
               st.next_id)
             st.next_id)
           st.next_id)) := by
    simp only [get_icon_from_cache, hl, hslash, hgi, hstat, hne, ne_eq,
      not_false_eq_true, if_true, hcreate, FactoryState.allocIcon]
  rw [hget]
  have hstA_get : ((st.allocIcon
      { ref_count := 1, pixbuf_ref_count := 1, mtime := t1, age := 0 }).2).getIcon
      st.next_id = some { ref_count := 1, pixbuf_ref_count := 1, mtime := t1, age := 0 } := by
    show lookupIcon (st.icons ++ [(st.next_id, _)]) st.next_id = _
    rw [lookupIcon_append]
    have : lookupIcon st.icons st.next_id = none := hfresh
    rw [this]
    simp [lookupIcon]
  have hins_get : (g_hash_table_insert
      (st.allocIcon { ref_count := 1, pixbuf_ref_count := 1, mtime := t1, age := 0 }).2
      { name := name, modifier := mod, nominal_size := n, force_nominal := f }
      st.next_id).getIcon st.next_id =
      some { ref_count := 1, pixbuf_ref_count := 1, mtime := t1, age := 0 } := by
    unfold g_hash_table_insert
    have hfindA : ((st.allocIcon
        { ref_count := 1, pixbuf_ref_count := 1, mtime := t1, age := 0 }).2).icon_cache.find?
        (fun p => cache_key_equal p.1
          { name := name, modifier := mod, nominal_size := n,
            force_nominal := f }) = some kv0 := by
      show st.icon_cache.find? _ = some kv0
      exact hfind0
    rw [hfindA]
    have hne2 : st.next_id ≠ kv0.2 := by rw [hkv0]; exact hidne
    rw [cache_icon_unref_getIcon_ne hne2]
    exact hstA_get
  have href_get := cache_icon_ref_getIcon hins_get
  have hmark_get := (mark_recently_used_getIcon _ st.next_id st.next_id).trans href_get
  have hreset_get := reset_age_getIcon hmark_get
  refine ⟨rfl, ?_, hidne⟩
  rw [schedule_sweep_getIcon, hreset_get]
  simp

/-- C8 witness: the concrete stale `/thumb` mapping (stored mtime 0) is
resynthesized when the file's mtime reads 7. -/
theorem get_stale_path_resynthesizes_witness :
    (get_icon_from_cache fileEnv staleState (some "/thumb") none 48 false).1 =
      some staleState.next_id ∧
    ((get_icon_from_cache fileEnv staleState (some "/thumb") none 48
        false).2.getIcon staleState.next_id).map (fun i => i.mtime) = some 7 := by
  obtain ⟨h1, h2, -⟩ := get_stale_path_resynthesizes fileEnv staleState "/thumb"
    none 48 false 1 youngIcon 7 (by decide) (by decide) (by decide) (by decide)
    (by decide) (by decide) (by decide)
  exact ⟨h1, h2⟩

/-! ### Claim C7 — recency list capacity -/

set_option maxRecDepth 100000 in
/-- C7: the Recency List is bounded by `ICON_CACHE_COUNT = 20`:
promoting the node already at the head (`node->prev == head`) is a
no-op; `mark_recently_used` never touches entries or the mapping (so the
displaced entry is not freed); promoting a node new to a full list
unlinks the current tail (which afterwards is in the list no more) while
leaving the counter at capacity; the counter always equals the list's
length and stays at most 20; and after twenty-one distinct successful
`get` calls on distinct keys from a fresh factory the list holds exactly
20 nodes while the first key's entry (id 1) is out of the list but still
mapped and alive. -/
theorem recency_list_capacity_spec :
    (∀ (st : FactoryState) (id : Nat),
       st.recently_used.head? = some id → mark_recently_used st id = st) ∧
    (∀ (st : FactoryState) (id : Nat),
       (mark_recently_used st id).icons = st.icons ∧
       (mark_recently_used st id).icon_cache = st.icon_cache) ∧
    (∀ (st : FactoryState) (id t : Nat),
       id ∉ st.recently_used → ¬ st.recently_used_count < ICON_CACHE_COUNT →
       st.recently_used.Nodup → st.recently_used.getLast? = some t →
       ((mark_recently_used st id).recently_used =
          id :: st.recently_used.dropLast ∧
        t ∉ (mark_recently_used st id).recently_used ∧
        (mark_recently_used st id).recently_used_count =
          st.recently_used_count)) ∧
    (∀ (st : FactoryState) (id : Nat),
       st.recently_used_count = st.recently_used.length →
       st.recently_used.length ≤ ICON_CACHE_COUNT →
       ((mark_recently_used st id).recently_used.length ≤ ICON_CACHE_COUNT ∧
        (mark_recently_used st id).recently_used_count =
          (mark_recently_used st id).recently_used.length)) ∧
    (scenarioFinal.recently_used.length = ICON_CACHE_COUNT ∧
     1 ∉ scenarioFinal.recently_used ∧
     (⟨"a", none, 48, false⟩, 1) ∈ scenarioFinal.icon_cache ∧
     scenarioFinal.getIcon 1 ≠ none) := by
  refine ⟨?_, ?_, ?_, ?_, by decide⟩
  · intro st id h
    simp [mark_recently_used, h]
  · intro st id
    exact ⟨(mark_recently_used_parts st id).1, (mark_recently_used_parts st id).2.1⟩
  · intro st id t hnm hcap hnd hlast
    have hnil : st.recently_used ≠ [] := by
      intro he
      rw [he] at hlast
      exact Option.noConfusion hlast
    have hhead : ¬ st.recently_used.head? = some id := by
      intro hh
      exact hnm (List.mem_of_mem_head? hh)
    have htmem : t ∈ st.recently_used := List.mem_of_mem_getLast? hlast
    have hres : (mark_recently_used st id).recently_used =
        id :: st.recently_used.dropLast ∧
        (mark_recently_used st id).recently_used_count =
          st.recently_used_count := by
      simp [mark_recently_used, hhead, hnm, hcap]
    refine ⟨hres.1, ?_, hres.2⟩
    rw [hres.1]
    intro hmem
    rcases List.mem_cons.mp hmem with h | h
    · exact hnm (h ▸ htmem)
    · have hconcat : st.recently_used.dropLast ++ [st.recently_used.getLast hnil] =
        st.recently_used := List.dropLast_append_getLast hnil
      have ht : t = st.recently_used.getLast hnil := by
        have := List.getLast?_eq_getLast st.recently_used hnil
        rw [this] at hlast
        exact (Option.some.inj hlast).symm
      have hdisj : st.recently_used.dropLast.Disjoint
          [st.recently_used.getLast hnil] := by
        have := hnd
        rw [← hconcat] at this
        exact List.disjoint_of_nodup_append this
      exact hdisj (ht ▸ h) (ht ▸ List.mem_singleton_self t)
  · intro st id hcl hle
    have hle' : st.recently_used.length ≤ 20 := hle
    by_cases h1 : st.recently_used.head? = some id
    · constructor <;>
        simp [mark_recently_used, ICON_CACHE_COUNT, h1, hle', hcl]
    · by_cases h2 : id ∈ st.recently_used
      · have hpos : 0 < st.recently_used.length := List.length_pos_of_mem h2
        have hlen : (st.recently_used.erase id).length =
            st.recently_used.length - 1 := List.length_erase_of_mem h2
        constructor <;>
            simp [mark_recently_used, ICON_CACHE_COUNT, h1, h2, hlen] <;>
          omega
      · by_cases h3 : st.recently_used_count < ICON_CACHE_COUNT
        · have h3' : st.recently_used_count < 20 := h3
          constructor <;>
              simp [mark_recently_used, ICON_CACHE_COUNT, h1, h2, h3'] <;>
            omega
        · have h3' : ¬ st.recently_used_count < 20 := h3
          have hlen : st.recently_used.dropLast.length =
              st.recently_used.length - 1 := List.length_dropLast st.recently_used
          constructor <;>
              simp [mark_recently_used, ICON_CACHE_COUNT, h1, h2, h3', hlen] <;>
            omega

/-- C7 witness: the no-op promotion and the capacity eviction at
concrete states. -/
theorem recency_list_capacity_spec_witness :
    mark_recently_used listedState 1 = listedState ∧
    (mark_recently_used cap20State 21).recently_used =
      21 :: cap20State.recently_used.dropLast ∧
    20 ∉ (mark_recently_used cap20State 21).recently_used ∧
    (mark_recently_used cap20State 21).recently_used_count = 20 := by
  refine ⟨recency_list_capacity_spec.1 listedState 1 (by decide), ?_⟩
  obtain ⟨ha, hb, hc⟩ := recency_list_capacity_spec.2.2.1 cap20State 21 20
    (by decide) (by decide) (by decide) (by decide)
  exact ⟨ha, hb, hc⟩

/-! ### Claim C9 — clearing the cache -/

theorem foreach_remove_step_cache (pred : CacheKey → Bool) (st : FactoryState)
    (kv : CacheKey × Nat) :
    (foreach_remove_step pred st kv).icon_cache =
      if pred kv.1 then st.icon_cache.erase kv else st.icon_cache := by
  unfold foreach_remove_step
  split
  · exact (cache_icon_unref_parts _ _).1
  · rfl

theorem foreach_remove_foldl_cache (pred : CacheKey → Bool) :
    ∀ (l pre : List (CacheKey × Nat)) (st : FactoryState),
      st.icon_cache = pre ++ l → (pre ++ l).Nodup →
      (l.foldl (foreach_remove_step pred) st).icon_cache =
        pre ++ l.filter (fun kv => !pred kv.1) := by
  intro l
  induction l with
  | nil =>
    intro pre st h _
    simpa using h
  | cons kv rest ih =>
    intro pre st h hnd
    simp only [List.foldl_cons]
    by_cases hp : pred kv.1
    · have hkvpre : kv ∉ pre := by
        have hdisj := List.disjoint_of_nodup_append hnd
        intro hmem
        exact hdisj hmem (List.mem_cons_self kv rest)
      have herase : st.icon_cache.erase kv = pre ++ rest := by
        rw [h, List.erase_append_right _ hkvpre, List.erase_cons_head]
      have hstep_cache : (foreach_remove_step pred st kv).icon_cache = pre ++ rest := by
        rw [foreach_remove_step_cache, if_pos hp, herase]
      have hnd' : (pre ++ rest).Nodup :=
        ((List.sublist_cons_self kv rest).append_left pre).nodup hnd
      rw [ih pre (foreach_remove_step pred st kv) hstep_cache hnd']
      simp [List.filter_cons, hp]
    · have hstep : foreach_remove_step pred st kv = st := by
        simp [foreach_remove_step, hp]
      rw [hstep]
      have h' : st.icon_cache = (pre ++ [kv]) ++ rest := by simpa using h
      have hnd'' : ((pre ++ [kv]) ++ rest).Nodup := by simpa using hnd
      rw [ih (pre ++ [kv]) st h' hnd'']
      simp [List.filter_cons, hp]

theorem length_le_one_of_forall_eq {l : List Nat} {c : Nat} (hnd : l.Nodup)
    (h : ∀ x ∈ l, x = c) : l.length ≤ 1 := by
  cases l with
  | nil => simp
  | cons a as =>
    cases as with
    | nil => simp
    | cons b bs =>
      have ha := h a (List.mem_cons_self a _)
      have hb := h b (List.mem_cons_of_mem a (List.mem_cons_self b bs))
      have hne : a ≠ b := by
        have := (List.nodup_cons.mp hnd).1
        intro he
        exact this (he ▸ List.mem_cons_self b bs)
      exact absurd (ha.trans hb.symm) hne

theorem mappings_to_cons (kv : CacheKey × Nat) (c : List (CacheKey × Nat))
    (id : Nat) :
    mappings_to (kv :: c) id =
      mappings_to c id + (if kv.2 = id then 1 else 0) := by
  unfold mappings_to
  rw [List.filter_cons]
  by_cases h : kv.2 = id <;> simp [h]

theorem mappings_to_nil (id : Nat) : mappings_to [] id = 0 := rfl

theorem clear_all_foldl_recency (pred : CacheKey → Bool)
    (hpred : ∀ k, pred k = true) :
    ∀ (l : List (CacheKey × Nat)) (st : FactoryState),
      st.icon_cache = l → st.recently_used.Nodup →
      (∀ id ∈ st.recently_used, id ≠ st.fallback_icon →
        ((st.getIcon id).map (fun i => i.ref_count) = some (mappings_to l id) ∧
         0 < mappings_to l id)) →
      ((∀ id ∈ (l.foldl (foreach_remove_step pred) st).recently_used,
          id = st.fallback_icon) ∧
       (l.foldl (foreach_remove_step pred) st).recently_used.Nodup) := by
  intro l
  induction l with
  | nil =>
    intro st _ hnd hinv
    refine ⟨fun id hid => ?_, hnd⟩
    by_contra hne
    obtain ⟨-, hpos⟩ := hinv id hid hne
    rw [mappings_to_nil] at hpos
    exact Nat.lt_irrefl 0 hpos
  | cons kv rest ih =>
    intro st h hnd hinv
    simp only [List.foldl_cons]
    have hstep : foreach_remove_step pred st kv =
        cache_icon_unref { st with icon_cache := rest } kv.2 := by
      unfold foreach_remove_step
      rw [if_pos (hpred kv.1), h, List.erase_cons_head]
    rw [hstep]
    have hru_eq : ({ st with icon_cache := rest } : FactoryState).recently_used =
        st.recently_used := rfl
    have hfb_eq : (cache_icon_unref { st with icon_cache := rest }
        kv.2).fallback_icon = st.fallback_icon :=
      (cache_icon_unref_parts _ _).2.1
    have hinv1 : ∀ id ∈ (cache_icon_unref { st with icon_cache := rest }
        kv.2).recently_used,
        id ≠ (cache_icon_unref { st with icon_cache := rest } kv.2).fallback_icon →
        (((cache_icon_unref { st with icon_cache := rest } kv.2).getIcon id).map
            (fun i => i.ref_count) = some (mappings_to rest id) ∧
         0 < mappings_to rest id) := by
      intro id hid hne
      rw [hfb_eq] at hne
      by_cases hv : kv.2 = id
      · subst hv
        have hidst : kv.2 ∈ st.recently_used := by
          rcases cache_icon_unref_recently_used
              { st with icon_cache := rest } kv.2 with hc | hc
          · rw [hc] at hid
            exact hid
          · rw [hc] at hid
            exact absurd hid (hnd.not_mem_erase)
        obtain ⟨href, hpos⟩ := hinv kv.2 hidst hne
        rw [mappings_to_cons, if_pos rfl] at href
        obtain ⟨icon, hgi, hrc⟩ := Option.map_eq_some'.mp href
        have hgi' : lookupIcon st.icons kv.2 = some icon := hgi
        by_cases hm : 0 < mappings_to rest kv.2
        · have hgt : icon.ref_count > 1 := by omega
          have hres : cache_icon_unref { st with icon_cache := rest } kv.2 =
              ({ st with icon_cache := rest } : FactoryState).setIcon kv.2
                { icon with ref_count := icon.ref_count - 1 } := by
            simp [cache_icon_unref, FactoryState.getIcon, hgi', hgt]
          rw [hres]
          refine ⟨?_, hm⟩
          have hset : lookupIcon
              (setIconList ({ st with icon_cache := rest } : FactoryState).icons
                kv.2 { icon with ref_count := icon.ref_count - 1 }) kv.2 =
              some { icon with ref_count := icon.ref_count - 1 } :=
            lookupIcon_setIconList_self hgi' _
          show Option.map _ (lookupIcon (setIconList _ _ _) _) = _
          rw [hset]
          simp
          omega
        · exfalso
          have hone : ¬ icon.ref_count > 1 := by omega
          have hru1 : (cache_icon_unref { st with icon_cache := rest }
              kv.2).recently_used = st.recently_used.erase kv.2 := by
            simp [cache_icon_unref, FactoryState.getIcon, hgi', hone,
              FactoryState.freeIcon, hidst]
          rw [hru1] at hid
          exact hnd.not_mem_erase hid
      · have hidst : id ∈ st.recently_used := by
          have hm : id ∈ (cache_icon_unref { st with icon_cache := rest }
              kv.2).recently_used ↔ id ∈ st.recently_used :=
            cache_icon_unref_mem_recently_used (fun he => hv he.symm)
          exact hm.mp hid
        obtain ⟨href, hpos⟩ := hinv id hidst hne
        rw [mappings_to_cons, if_neg hv] at href hpos
        refine ⟨?_, by simpa using hpos⟩
        rw [cache_icon_unref_getIcon_ne (fun he => hv he.symm)]
        simpa using href
    obtain ⟨c1, c2⟩ := ih (cache_icon_unref { st with icon_cache := rest } kv.2)
      (cache_icon_unref_parts _ _).1
      (cache_icon_unref_nodup _ hnd)
      hinv1
    exact ⟨fun id hid => (c1 id hid).trans hfb_eq, c2⟩

/-- C9: `nautilus_icon_factory_clear` with `clear_pathnames = FALSE`
(the spec's `keepPathEntries = true`) removes exactly the mappings whose
key name does not start with `/`, keeping every pathname-keyed mapping;
with `clear_pathnames = TRUE` (`keepPathEntries = false`) it removes
every mapping, and — in a quiescent state satisfying the reference-count
accounting invariant `ListInv` — the recency list afterwards holds at
most one node, which can only be the fallback entry's. -/
theorem nautilus_icon_factory_clear_spec (st : FactoryState)
    (hndc : st.icon_cache.Nodup) (hndr : st.recently_used.Nodup)
    (hinv : ListInv st) :
    ((nautilus_icon_factory_clear st false).icon_cache =
       st.icon_cache.filter (fun kv => starts_with_slash kv.1.name)) ∧
    (nautilus_icon_factory_clear st true).icon_cache = [] ∧
    (nautilus_icon_factory_clear st true).recently_used.length ≤ 1 ∧
    (∀ id ∈ (nautilus_icon_factory_clear st true).recently_used,
       id = st.fallback_icon) := by
  have hpre : st.icon_cache = [] ++ st.icon_cache := rfl
  have hndc' : ([] ++ st.icon_cache : List (CacheKey × Nat)).Nodup := hndc
  have hclear_false : nautilus_icon_factory_clear st false =
      g_hash_table_foreach_remove st remove_non_pathnames := rfl
  have hclear_true : nautilus_icon_factory_clear st true =
      g_hash_table_foreach_remove st remove_all := rfl
  obtain ⟨c1, c2⟩ := clear_all_foldl_recency remove_all (fun _ => rfl)
    st.icon_cache st rfl hndr hinv
  refine ⟨?_, ?_, ?_, ?_⟩
  · rw [hclear_false]
    unfold g_hash_table_foreach_remove
    rw [foreach_remove_foldl_cache remove_non_pathnames st.icon_cache [] st
      hpre hndc']
    rw [List.nil_append]
    apply List.filter_congr
    intro kv _
    unfold remove_non_pathnames
    cases hsw : starts_with_slash kv.1.name <;> simp [hsw]
  · rw [hclear_true]
    unfold g_hash_table_foreach_remove
    rw [foreach_remove_foldl_cache remove_all st.icon_cache [] st hpre hndc']
    simp [remove_all]
  · rw [hclear_true]
    exact length_le_one_of_forall_eq c2 c1
  · rw [hclear_true]
    exact c1

/-- C9 witness: clearing the concrete mixed state keeps exactly the
pathname mapping under a partial clear, and a full clear empties the
mapping leaving at most the fallback node listed. -/
theorem nautilus_icon_factory_clear_spec_witness :
    (nautilus_icon_factory_clear mixedState false).icon_cache =
      mixedState.icon_cache.filter (fun kv => starts_with_slash kv.1.name) ∧
    (nautilus_icon_factory_clear mixedState true).icon_cache = [] ∧
    (nautilus_icon_factory_clear mixedState true).recently_used.length ≤ 1 ∧
    (∀ id ∈ (nautilus_icon_factory_clear mixedState true).recently_used,
       id = mixedState.fallback_icon) :=
  nautilus_icon_factory_clear_spec mixedState (by decide) (by decide) (by decide)
